import Mathlib

/-!
Verification of pyqode.python (src/pyqode/python/editor.py).

The file embeds, as executable Lean definitions, the three behaviours of the
module:

* the PEP-263-style encoding scan of QPythonCodeEdit.detect_encoding
  (editor.py lines 128-140);
* the component-attachment sequence performed by QPythonCodeEdit.__init__
  (editor.py lines 71-106), recorded as a trace of install events;
* the two colour-scheme appliers set_dark_color_scheme /
  set_white_color_scheme (editor.py lines 143-188) and the trigger methods
  use_dark_style / use_white_style (lines 108-126), as transformers of an
  explicit style-state record.

Theorems about these definitions follow the definitions.
-/

namespace PyQode

/-! ### Character classes used by the regular expression

The scan compiles the pattern `#.*coding[:=]\s*([-\w.]+)` and applies it with
`re.match` (anchored at the start of the line).  We model the `\w` and `\s`
classes over the ASCII range (plus the latin-1 whitespace code points that
Python's `str` treats as `\s`); the pattern itself only ever needs ASCII to
recognise real encoding declarations. -/

/-- The class `[-\w.]` of the capture group: word characters, hyphen, dot. -/
def isEncodingChar (c : Char) : Bool :=
  c.isAlphanum || c = '_' || c = '-' || c = '.'

/-- The class `\s` (whitespace) as matched by Python regular expressions on
ASCII/latin-1 text. -/
def isPySpace (c : Char) : Bool :=
  c = ' ' || c = '\t' || c = '\n' || c = '\r' ||
  c = '\x0b' || c = '\x0c' ||
  c = '\x1c' || c = '\x1d' || c = '\x1e' || c = '\x1f' ||
  c = '\x85' || c = '\xa0'

/-! ### str.splitlines

`detect_encoding` iterates over `data.splitlines()`.  Python splits on any of
the universal line boundaries, treats a CR LF pair as a single boundary, and
produces no trailing empty line for input ending in a boundary. -/

/-- The set of line-boundary characters recognised by Python str.splitlines. -/
def isLineBreak (c : Char) : Bool :=
  c = '\n' || c = '\r' || c = '\x0b' || c = '\x0c' ||
  c = '\x1c' || c = '\x1d' || c = '\x1e' ||
  c = '\x85' || c = '\u2028' || c = '\u2029'

/-- Worker for splitlines: accumulates the current line in reverse. -/
def splitlinesAux : List Char → List Char → List (List Char)
  | [], acc => if acc.isEmpty then [] else [acc.reverse]
  | '\r' :: '\n' :: t, acc => acc.reverse :: splitlinesAux t []
  | c :: t, acc =>
    if isLineBreak c then acc.reverse :: splitlinesAux t []
    else splitlinesAux t (c :: acc)

/-- Python str.splitlines on a character list. -/
def splitlines (cs : List Char) : List (List Char) :=
  splitlinesAux cs []

/-! ### The anchored match of `#.*coding[:=]\s*([-\w.]+)`

`re.match` anchors at the start of the line, so the first character must be
`#`.  The greedy `.*` makes the engine try the latest feasible position for
the literal `coding` first, so when several occurrences could complete a
match the capture comes from the last one.  After `coding` and one of `:`
or `=`, greedy `\s*` absorbs the maximal whitespace run and the greedy
capture `([-\w.]+)` is the maximal nonempty run of `[-\w.]` characters
(the two classes are disjoint, so no further backtracking can arise). -/

/-- Match `coding[:=]\s*([-\w.]+)` at the start of the list; return the
capture. -/
def matchTail (cs : List Char) : Option (List Char) :=
  match cs with
  | c0 :: c1 :: c2 :: c3 :: c4 :: c5 :: sep :: rest =>
    if [c0, c1, c2, c3, c4, c5] = ("coding").toList ∧ (sep = ':' ∨ sep = '=') then
      if (rest.dropWhile isPySpace).takeWhile isEncodingChar = [] then none
      else some ((rest.dropWhile isPySpace).takeWhile isEncodingChar)
    else none
  | _ => none

/-- Resolve the greedy `.*`: try the latest start for the tail pattern first,
mirroring the backtracking order of the regular-expression engine. -/
def scanGreedy : List Char → Option (List Char)
  | [] => matchTail []
  | c :: rest =>
    match scanGreedy rest with
    | some g => some g
    | none => matchTail (c :: rest)

/-- The full anchored match of one line against `#.*coding[:=]\s*([-\w.]+)`:
the capture of the match chosen by the engine, or none. -/
def matchCodingLine (l : List Char) : Option (List Char) :=
  match l with
  | c :: rest => if c = '#' then scanGreedy rest else none
  | [] => none

/-! ### detect_encoding

editor.py lines 128-140:

    def detect_encoding(self, data):
        encoding = self.default_encoding()
        if sys.version_info[0] == 3:
            data = str(data.decode("utf-8"))
        for l in data.splitlines():
            regexp = re.compile(r"#.*coding[:=]\s*([-\w.]+)")
            match = regexp.match(l)
            if match:
                encoding = match.groups()[0]
        return encoding

`self.default_encoding()` (the platform filesystem fallback, supplied by the
host widget class outside this repository) is passed in as a parameter, and
the Python-3 bytes-to-str UTF-8 decode is modelled by taking the already
decoded text as input. -/

/-- One iteration of the loop body: a matching line overwrites the current
encoding with its capture. -/
def encStep (enc : String) (l : List Char) : String :=
  match matchCodingLine l with
  | some g => String.mk g
  | none => enc

/-- QPythonCodeEdit.detect_encoding. -/
def detect_encoding (default_encoding : String) (data : String) : String :=
  (splitlines data.toList).foldl encStep default_encoding

/-- Fold computing the capture of the last matching line, if any. -/
def lmStep (acc : Option (List Char)) (l : List Char) : Option (List Char) :=
  match matchCodingLine l with
  | some g => some g
  | none => acc

/-- The capture of the last line that matches the pattern, if any line does. -/
def lastMatch (ls : List (List Char)) : Option (List Char) :=
  ls.foldl lmStep none

example : detect_encoding "ascii" "# -*- coding: utf-8 -*-\nprint(1)" = "utf-8" := by decide
example : detect_encoding "ascii" "# coding: utf-8\n# coding: cp1252" = "cp1252" := by decide
example : detect_encoding "ascii" "print(1)" = "ascii" := by decide
example : detect_encoding "ascii" "a\nb\n# coding= cp1252" = "cp1252" := by decide

/-! ### The composer: QPythonCodeEdit.__init__ (editor.py lines 71-106)

The constructor attaches a fixed sequence of components through
api.install_mode / api.install_panel.  We record that sequence as a trace of
install events, one entry per call, in source order. -/

/-- Dock positions passed to install_panel; calls without an explicit position
use the panel's own default and are recorded with no position. -/
inductive PanelPosition
  | top
  | bottom
deriving DecidableEq

/-- The components attached by QPythonCodeEdit.__init__, one constructor per
mode or panel class instantiated there. -/
inductive Component
  | documentAnalyserMode
  | lineNumberPanel
  | markerPanel
  | searchAndReplacePanel
  | symbolBrowserPanel
  | caretLineHighlighterMode
  | fileWatcherMode
  | rightMarginMode
  | zoomMode
  | symbolMatcherMode
  | wordClickMode
  | codeCompletionMode
  | pyHighlighterMode
  | pyAutoCompleteMode
  | pyAutoIndentMode
  | frostedCheckerMode
  | pep8CheckerMode
  | calltipsMode
  | pyIndenterMode
  | goToAssignmentsMode
  | quickDocPanel
  | commentsMode
deriving DecidableEq

/-- One attachment call performed by the constructor. -/
inductive InstallEvent
  | installMode (c : Component)
  | installPanel (c : Component) (pos : Option PanelPosition)
deriving DecidableEq

/-- The attachment calls of QPythonCodeEdit.__init__ in source order
(editor.py lines 76-106).  PyHighlighterMode is constructed against
self.document(); the other constructors take no widget argument. -/
def qPythonCodeEdit_install_trace : List InstallEvent :=
  [ InstallEvent.installMode Component.documentAnalyserMode,
    InstallEvent.installPanel Component.lineNumberPanel none,
    InstallEvent.installPanel Component.markerPanel none,
    InstallEvent.installPanel Component.searchAndReplacePanel (some PanelPosition.bottom),
    InstallEvent.installPanel Component.symbolBrowserPanel (some PanelPosition.top),
    InstallEvent.installMode Component.caretLineHighlighterMode,
    InstallEvent.installMode Component.fileWatcherMode,
    InstallEvent.installMode Component.rightMarginMode,
    InstallEvent.installMode Component.zoomMode,
    InstallEvent.installMode Component.symbolMatcherMode,
    InstallEvent.installMode Component.wordClickMode,
    InstallEvent.installMode Component.codeCompletionMode,
    InstallEvent.installMode Component.pyHighlighterMode,
    InstallEvent.installMode Component.pyAutoCompleteMode,
    InstallEvent.installMode Component.pyAutoIndentMode,
    InstallEvent.installMode Component.frostedCheckerMode,
    InstallEvent.installMode Component.pep8CheckerMode,
    InstallEvent.installMode Component.calltipsMode,
    InstallEvent.installMode Component.pyIndenterMode,
    InstallEvent.installMode Component.goToAssignmentsMode,
    InstallEvent.installPanel Component.quickDocPanel (some PanelPosition.bottom),
    InstallEvent.installMode Component.commentsMode ]

/-- The attachment order asserted by the specification claim, written from the
spec's words for comparison with the trace embedded from the source: analyser
first, the four panels, the seven generic modes, then the language-specific
modes with the STYLE checker (PEP8) before the STATIC-ANALYSIS checker
(Frosted), then the quick-documentation panel, then the comments mode. -/
def specClaimedInstallOrder : List InstallEvent :=
  [ InstallEvent.installMode Component.documentAnalyserMode,
    InstallEvent.installPanel Component.lineNumberPanel none,
    InstallEvent.installPanel Component.markerPanel none,
    InstallEvent.installPanel Component.searchAndReplacePanel (some PanelPosition.bottom),
    InstallEvent.installPanel Component.symbolBrowserPanel (some PanelPosition.top),
    InstallEvent.installMode Component.caretLineHighlighterMode,
    InstallEvent.installMode Component.fileWatcherMode,
    InstallEvent.installMode Component.rightMarginMode,
    InstallEvent.installMode Component.zoomMode,
    InstallEvent.installMode Component.symbolMatcherMode,
    InstallEvent.installMode Component.wordClickMode,
    InstallEvent.installMode Component.codeCompletionMode,
    InstallEvent.installMode Component.pyHighlighterMode,
    InstallEvent.installMode Component.pyAutoCompleteMode,
    InstallEvent.installMode Component.pyAutoIndentMode,
    InstallEvent.installMode Component.pep8CheckerMode,
    InstallEvent.installMode Component.frostedCheckerMode,
    InstallEvent.installMode Component.calltipsMode,
    InstallEvent.installMode Component.pyIndenterMode,
    InstallEvent.installMode Component.goToAssignmentsMode,
    InstallEvent.installPanel Component.quickDocPanel (some PanelPosition.bottom),
    InstallEvent.installMode Component.commentsMode ]

/-- The attachment order of the amended claim: identical to the claimed order
except that the static-analysis checker (Frosted) is attached before the
style checker (PEP8), as the source does. -/
def specAmendedInstallOrder : List InstallEvent :=
  [ InstallEvent.installMode Component.documentAnalyserMode,
    InstallEvent.installPanel Component.lineNumberPanel none,
    InstallEvent.installPanel Component.markerPanel none,
    InstallEvent.installPanel Component.searchAndReplacePanel (some PanelPosition.bottom),
    InstallEvent.installPanel Component.symbolBrowserPanel (some PanelPosition.top),
    InstallEvent.installMode Component.caretLineHighlighterMode,
    InstallEvent.installMode Component.fileWatcherMode,
    InstallEvent.installMode Component.rightMarginMode,
    InstallEvent.installMode Component.zoomMode,
    InstallEvent.installMode Component.symbolMatcherMode,
    InstallEvent.installMode Component.wordClickMode,
    InstallEvent.installMode Component.codeCompletionMode,
    InstallEvent.installMode Component.pyHighlighterMode,
    InstallEvent.installMode Component.pyAutoCompleteMode,
    InstallEvent.installMode Component.pyAutoIndentMode,
    InstallEvent.installMode Component.frostedCheckerMode,
    InstallEvent.installMode Component.pep8CheckerMode,
    InstallEvent.installMode Component.calltipsMode,
    InstallEvent.installMode Component.pyIndenterMode,
    InstallEvent.installMode Component.goToAssignmentsMode,
    InstallEvent.installPanel Component.quickDocPanel (some PanelPosition.bottom),
    InstallEvent.installMode Component.commentsMode ]

/-! ### Theme application (editor.py lines 108-126 and 143-188)

set_dark_color_scheme / set_white_color_scheme mutate two process-wide stores:
the pyqode.python style module dictionary (written under keys namespaced with
"py_") and six attributes of the pyqode.core style module; they then call
code_edit.refresh_style().  We model the two stores and a refresh counter as
an explicit state record.

The palettes DEFAULT_DARK_STYLES and DEFAULT_LIGHT_STYLES are imported from
pyqode.python.modes, which is not part of this repository snapshot. -/

/-- Modelled from the spec: a Palette stands for DEFAULT_DARK_STYLES or
DEFAULT_LIGHT_STYLES, whose contents live in pyqode.python.modes (missing
from the snapshot); the spec says only that each is an immutable mapping from
style-attribute name to colour value, so a palette is an association list of
key-colour pairs and the theorems quantify over it. -/
abbrev Palette : Type := List (String × String)

/-- The language-specific style store (the style module dictionary), a mutable
map from attribute name to colour value. -/
abbrev PyDict : Type := String → Option String

/-- Python dictionary assignment d[k] = v. -/
def dictInsert (d : PyDict) (k v : String) : PyDict :=
  fun q => if q = k then some v else d q

/-- The six generic attributes of the pyqode.core style module written by the
scheme functions.  matchedBraceBackground is an Option because the dark
scheme assigns None to it. -/
structure CoreStyle where
  background : Option String
  foreground : Option String
  caretLineBackground : Option String
  whiteSpaceForeground : Option String
  matchedBraceBackground : Option String
  matchedBraceForeground : Option String
deriving DecidableEq

/-- The shared style state touched by the theme functions, plus a counter of
refresh_style() calls. -/
structure EditorState where
  core : CoreStyle
  pyStyle : PyDict
  refreshCount : Nat

/-- The loop over palette items: for k, v in palette.items():
style.__dict__["py_" + k] = v. -/
def applyPalette (p : Palette) (d : PyDict) : PyDict :=
  p.foldl (fun acc kv => dictInsert acc ("py_" ++ kv.1) kv.2) d

/-- The six generic constants written by set_white_color_scheme
(editor.py lines 182-187), as the spec's light-theme constants. -/
def lightCoreConstants : CoreStyle :=
  { background := some "#FFFFFF"
    foreground := some "#000000"
    caretLineBackground := some "#E4EDF8"
    whiteSpaceForeground := some "#dddddd"
    matchedBraceBackground := some "#B4EEB4"
    matchedBraceForeground := some "#FF0000" }

/-- The six generic constants written by set_dark_color_scheme
(editor.py lines 158-163), as the spec's dark-theme constants. -/
def darkCoreConstants : CoreStyle :=
  { background := some "#252525"
    foreground := some "#A9B7C6"
    caretLineBackground := some "#2d2d2d"
    whiteSpaceForeground := some "#404040"
    matchedBraceBackground := none
    matchedBraceForeground := some "#FF8647" }

/-- set_dark_color_scheme: write the dark palette under namespaced keys, then
overwrite the six generic attributes with the dark constants, then call
refresh_style(). -/
def set_dark_color_scheme (dark : Palette) (s : EditorState) : EditorState :=
  { s with
    pyStyle := applyPalette dark s.pyStyle
    core :=
      { background := some "#252525"
        foreground := some "#A9B7C6"
        caretLineBackground := some "#2d2d2d"
        whiteSpaceForeground := some "#404040"
        matchedBraceBackground := none
        matchedBraceForeground := some "#FF8647" }
    refreshCount := s.refreshCount + 1 }

/-- set_white_color_scheme: write the light palette under namespaced keys,
then overwrite the six generic attributes with the light constants, then call
refresh_style(). -/
def set_white_color_scheme (light : Palette) (s : EditorState) : EditorState :=
  { s with
    pyStyle := applyPalette light s.pyStyle
    core :=
      { background := some "#FFFFFF"
        foreground := some "#000000"
        caretLineBackground := some "#E4EDF8"
        whiteSpaceForeground := some "#dddddd"
        matchedBraceBackground := some "#B4EEB4"
        matchedBraceForeground := some "#FF0000" }
    refreshCount := s.refreshCount + 1 }

/-- QPythonCodeEdit.use_dark_style: early return when use is false, else
apply the dark scheme. -/
def use_dark_style (use : Bool) (dark : Palette) (s : EditorState) : EditorState :=
  if use then set_dark_color_scheme dark s else s

/-- QPythonCodeEdit.use_white_style: early return when use is false, else
apply the light scheme. -/
def use_white_style (use : Bool) (light : Palette) (s : EditorState) : EditorState :=
  if use then set_white_color_scheme light s else s

/-- A blank shared style state, used to instantiate theorems on concrete
inputs. -/
def emptyEditorState : EditorState :=
  { core :=
      { background := none
        foreground := none
        caretLineBackground := none
        whiteSpaceForeground := none
        matchedBraceBackground := none
        matchedBraceForeground := none }
    pyStyle := fun _ => none
    refreshCount := 0 }

/-! ## Helper lemmas -/

/-- Running the loop body over a list of lines, starting from the encoding
described by an optional pending capture, yields the encoding described by
the fold that tracks the last capture. -/
theorem foldl_encStep_lmStep (ls : List (List Char)) (d : String)
    (acc : Option (List Char)) :
    ls.foldl encStep (match acc with | some g => String.mk g | none => d) =
      match ls.foldl lmStep acc with | some g => String.mk g | none => d := by
  induction ls generalizing acc with
  | nil => rfl
  | cons l ls ih =>
    simp only [List.foldl_cons]
    cases h : matchCodingLine l with
    | some g =>
      have h1 : encStep (match acc with | some g => String.mk g | none => d) l
          = String.mk g := by simp [encStep, h]
      have h2 : lmStep acc l = some g := by simp [lmStep, h]
      rw [h1, h2]
      exact ih (some g)
    | none =>
      have h1 : encStep (match acc with | some g => String.mk g | none => d) l
          = (match acc with | some g => String.mk g | none => d) := by
        simp [encStep, h]
      have h2 : lmStep acc l = acc := by simp [lmStep, h]
      rw [h1, h2]
      exact ih acc

/-- detect_encoding returns the capture of the last matching line when one
exists, and the fallback otherwise. -/
theorem detect_encoding_eq_lastMatch (d data : String) :
    detect_encoding d data =
      match lastMatch (splitlines data.toList) with
      | some g => String.mk g
      | none => d :=
  foldl_encStep_lmStep (splitlines data.toList) d none

/-- The last-capture fold leaves the accumulator untouched over lines none of
which match. -/
theorem foldl_lmStep_all_none (ls : List (List Char)) (acc : Option (List Char))
    (h : ∀ l ∈ ls, matchCodingLine l = none) : ls.foldl lmStep acc = acc := by
  induction ls generalizing acc with
  | nil => rfl
  | cons l ls ih =>
    simp only [List.foldl_cons]
    have h1 : lmStep acc l = acc := by
      simp [lmStep, h l (List.mem_cons_self l ls)]
    rw [h1]
    exact ih acc (fun l' hl' => h l' (List.mem_cons_of_mem l hl'))

/-- If the last-capture fold produced a capture, it came from a line of the
list or was the initial accumulator. -/
theorem foldl_lmStep_some (ls : List (List Char)) (acc : Option (List Char))
    (g : List Char) (h : ls.foldl lmStep acc = some g) :
    (∃ l ∈ ls, matchCodingLine l = some g) ∨ acc = some g := by
  induction ls generalizing acc with
  | nil => exact Or.inr h
  | cons l ls ih =>
    simp only [List.foldl_cons] at h
    rcases ih (lmStep acc l) h with hmem | hacc
    · obtain ⟨l', hl', hm⟩ := hmem
      exact Or.inl ⟨l', List.mem_cons_of_mem l hl', hm⟩
    · cases hm : matchCodingLine l with
      | some g' =>
        have : some g' = some g := by rw [← hacc]; simp [lmStep, hm]
        exact Or.inl ⟨l, List.mem_cons_self l ls, by rw [hm, this]⟩
      | none =>
        have : acc = some g := by rw [← hacc]; simp [lmStep, hm]
        exact Or.inr this

/-- Structure of a successful tail match: the list is the literal coding, a
separator, a whitespace run, the nonempty capture of encoding characters, and
a remainder. -/
theorem matchTail_some (cs g : List Char) (h : matchTail cs = some g) :
    ∃ sep ws rest, cs = ("coding").toList ++ (sep :: (ws ++ (g ++ rest))) ∧
      (sep = ':' ∨ sep = '=') ∧ g ≠ [] ∧
      (∀ c ∈ g, isEncodingChar c = true) ∧
      (∀ c ∈ ws, isPySpace c = true) := by
  match cs with
  | [] => simp [matchTail] at h
  | [c0] => simp [matchTail] at h
  | [c0, c1] => simp [matchTail] at h
  | [c0, c1, c2] => simp [matchTail] at h
  | [c0, c1, c2, c3] => simp [matchTail] at h
  | [c0, c1, c2, c3, c4] => simp [matchTail] at h
  | [c0, c1, c2, c3, c4, c5] => simp [matchTail] at h
  | c0 :: c1 :: c2 :: c3 :: c4 :: c5 :: sep :: rest =>
    rw [matchTail] at h
    split at h
    case isTrue hcond =>
      obtain ⟨hcoding, hsep⟩ := hcond
      split at h
      case isTrue => exact absurd h (by simp)
      case isFalse hne =>
        have hg : (rest.dropWhile isPySpace).takeWhile isEncodingChar = g :=
          Option.some.inj h
        have hc : [c0, c1, c2, c3, c4, c5] = ['c', 'o', 'd', 'i', 'n', 'g'] := hcoding
        obtain ⟨e0, e1, e2, e3, e4, e5, -⟩ :
            c0 = 'c' ∧ c1 = 'o' ∧ c2 = 'd' ∧ c3 = 'i' ∧ c4 = 'n' ∧ c5 = 'g' ∧ True := by
          simpa using hc
        subst e0; subst e1; subst e2; subst e3; subst e4; subst e5
        refine ⟨sep, rest.takeWhile isPySpace,
          (rest.dropWhile isPySpace).dropWhile isEncodingChar, ?_, hsep, ?_, ?_, ?_⟩
        · have h1 : rest.takeWhile isPySpace ++ rest.dropWhile isPySpace = rest :=
            List.takeWhile_append_dropWhile isPySpace rest
          have h2 : g ++ (rest.dropWhile isPySpace).dropWhile isEncodingChar
              = rest.dropWhile isPySpace := by
            rw [← hg]
            exact List.takeWhile_append_dropWhile isEncodingChar (rest.dropWhile isPySpace)
          rw [h2, h1]
          rfl
        · rw [hg] at hne; exact hne
        · intro c hcmem
          rw [← hg] at hcmem
          exact List.mem_takeWhile_imp hcmem
        · intro c hcmem
          exact List.mem_takeWhile_imp hcmem
    case isFalse => exact absurd h (by simp)

/-- Structure of a successful greedy scan: some split of the list has the
tail pattern matching at the split point. -/
theorem scanGreedy_some (cs g : List Char) (h : scanGreedy cs = some g) :
    ∃ pre suf, cs = pre ++ suf ∧ matchTail suf = some g := by
  induction cs with
  | nil => exact ⟨[], [], rfl, h⟩
  | cons c rest ih =>
    rw [scanGreedy] at h
    cases hr : scanGreedy rest with
    | some g' =>
      rw [hr] at h
      obtain ⟨pre, suf, hcs, hm⟩ := ih (hr.trans h)
      exact ⟨c :: pre, suf, by rw [List.cons_append, ← hcs], hm⟩
    | none =>
      rw [hr] at h
      exact ⟨[], c :: rest, rfl, h⟩

/-- Structure of a successful line match: the line starts with a hash and
contains the coding marker, a separator, optional whitespace, and the capture
verbatim. -/
theorem matchCodingLine_some (l g : List Char) (h : matchCodingLine l = some g) :
    ∃ mid sep ws rest,
      l = '#' :: (mid ++ (("coding").toList ++ (sep :: (ws ++ (g ++ rest))))) ∧
      (sep = ':' ∨ sep = '=') ∧ g ≠ [] ∧
      (∀ c ∈ g, isEncodingChar c = true) ∧
      (∀ c ∈ ws, isPySpace c = true) := by
  match l with
  | [] => simp [matchCodingLine] at h
  | c :: rest =>
    rw [matchCodingLine] at h
    split at h
    case isTrue hc =>
      subst hc
      obtain ⟨pre, suf, hcs, hm⟩ := scanGreedy_some rest g h
      obtain ⟨sep, ws, rest2, hsuf, hsep, hne, hgchars, hwschars⟩ := matchTail_some suf g hm
      exact ⟨pre, sep, ws, rest2, by rw [hcs, hsuf], hsep, hne, hgchars, hwschars⟩
    case isFalse => exact absurd h (by simp)

/-! ## Claim theorems for detect_encoding -/

/-- C1: the scan examines every line of the input; when several lines match
the encoding-declaration pattern, the capture of the LAST matching line is
returned, as witnessed in general by the last-capture fold and concretely on
a two-match input yielding cp1252 and on a match beyond the second line. -/
theorem detect_encoding_last_match_wins :
    (∀ d data : String, detect_encoding d data =
      match lastMatch (splitlines data.toList) with
      | some g => String.mk g
      | none => d) ∧
    detect_encoding "ascii" "# coding: utf-8\n# coding: cp1252" = "cp1252" ∧
    detect_encoding "ascii" "line1\nline2\nline3\n# coding: cp1252" = "cp1252" :=
  ⟨fun d data => detect_encoding_eq_lastMatch d data, by decide, by decide⟩

/-- C3: detect_encoding is total; for every fallback and every input text it
returns a string. -/
theorem detect_encoding_total (d data : String) :
    ∃ e : String, detect_encoding d data = e :=
  ⟨detect_encoding d data, rfl⟩

/-- C4: when no line of the input matches the encoding-declaration pattern,
detect_encoding returns the fallback default encoding unchanged. -/
theorem detect_encoding_no_match_fallback (d data : String)
    (h : ∀ l ∈ splitlines data.toList, matchCodingLine l = none) :
    detect_encoding d data = d := by
  have hlast : lastMatch (splitlines data.toList) = none :=
    foldl_lmStep_all_none (splitlines data.toList) none h
  rw [detect_encoding_eq_lastMatch, hlast]

/-- Witness for C4 at a concrete two-line input with no declaration. -/
theorem detect_encoding_no_match_fallback_witness :
    (∀ l ∈ splitlines (String.toList "print(1)\npass"), matchCodingLine l = none) ∧
    detect_encoding "utf-8" "print(1)\npass" = "utf-8" :=
  ⟨by decide, detect_encoding_no_match_fallback "utf-8" "print(1)\npass" (by decide)⟩

/-- C8: when exactly one line of the input matches the pattern, the returned
encoding is that line's capture; and concretely the single-declaration input
with utf-8 returns utf-8 for every fallback. -/
theorem detect_encoding_single_match :
    (∀ (d data : String) (pre post : List (List Char)) (l g : List Char),
      splitlines data.toList = pre ++ l :: post →
      (∀ l' ∈ pre, matchCodingLine l' = none) →
      (∀ l' ∈ post, matchCodingLine l' = none) →
      matchCodingLine l = some g →
      detect_encoding d data = String.mk g) ∧
    (∀ d : String, detect_encoding d "# -*- coding: utf-8 -*-\nprint(1)" = "utf-8") := by
  constructor
  · intro d data pre post l g hsplit hpre hpost hl
    have hlast : lastMatch (splitlines data.toList) = some g := by
      rw [hsplit]
      show (pre ++ l :: post).foldl lmStep none = some g
      rw [List.foldl_append, List.foldl_cons]
      have h1 : lmStep (pre.foldl lmStep none) l = some g := by simp [lmStep, hl]
      rw [h1]
      exact foldl_lmStep_all_none post (some g) hpost
    rw [detect_encoding_eq_lastMatch, hlast]
  · intro d
    have hl : lastMatch (splitlines (String.toList "# -*- coding: utf-8 -*-\nprint(1)"))
        = some (String.toList "utf-8") := by decide
    rw [detect_encoding_eq_lastMatch, hl]
    rfl

/-- Witness for C8 at a concrete input whose single declaration names
latin-1. -/
theorem detect_encoding_single_match_witness :
    detect_encoding "ascii" "# coding: latin-1\nprint(1)" = String.mk (String.toList "latin-1") :=
  detect_encoding_single_match.1 "ascii" "# coding: latin-1\nprint(1)"
    [] [String.toList "print(1)"]
    (String.toList "# coding: latin-1") (String.toList "latin-1")
    (by decide) (by decide) (by decide) (by decide)

/-- C9: detect_encoding is deterministic; calls with equal fallbacks and
equal input data return equal encodings. -/
theorem detect_encoding_deterministic (d₁ d₂ data₁ data₂ : String)
    (hd : d₁ = d₂) (hdata : data₁ = data₂) :
    detect_encoding d₁ data₁ = detect_encoding d₂ data₂ := by
  rw [hd, hdata]

/-- Witness for C9 at a concrete fallback and input. -/
theorem detect_encoding_deterministic_witness :
    detect_encoding "ascii" "# coding: utf-8" = detect_encoding "ascii" "# coding: utf-8" :=
  detect_encoding_deterministic "ascii" "ascii" "# coding: utf-8" "# coding: utf-8" rfl rfl

/-- C10: whenever detect_encoding returns something other than the fallback,
the result is the capture of a matching input line: a nonempty string of
word, hyphen and dot characters that appears verbatim in that line after the
hash and a coding marker followed by a separator and optional whitespace. -/
theorem detect_encoding_result_provenance (d data : String)
    (h : detect_encoding d data ≠ d) :
    ∃ l ∈ splitlines data.toList,
      matchCodingLine l = some (detect_encoding d data).toList ∧
      (detect_encoding d data).toList ≠ [] ∧
      (∀ c ∈ (detect_encoding d data).toList, isEncodingChar c = true) ∧
      ∃ mid sep ws rest,
        l = '#' :: (mid ++ (("coding").toList ++
          (sep :: (ws ++ ((detect_encoding d data).toList ++ rest))))) ∧
        (sep = ':' ∨ sep = '=') ∧
        (∀ c ∈ ws, isPySpace c = true) := by
  have heq := detect_encoding_eq_lastMatch d data
  cases hm : lastMatch (splitlines data.toList) with
  | none => rw [hm] at heq; exact absurd heq h
  | some g =>
    rw [hm] at heq
    have heq2 : detect_encoding d data = String.mk g := heq
    have htl : (detect_encoding d data).toList = g := congrArg String.toList heq2
    rcases foldl_lmStep_some (splitlines data.toList) none g hm with hmem | hacc
    · obtain ⟨l, hl, hcap⟩ := hmem
      obtain ⟨mid, sep, ws, rest, hdecomp, hsep, hne, hgchars, hwschars⟩ :=
        matchCodingLine_some l g hcap
      rw [htl]
      exact ⟨l, hl, hcap, hne, hgchars, mid, sep, ws, rest, hdecomp, hsep, hwschars⟩
    · exact absurd hacc (by simp)

/-- Witness for C10 at a concrete input whose declaration names utf-8. -/
theorem detect_encoding_result_provenance_witness :
    ∃ l ∈ splitlines (String.toList "# coding: utf-8"),
      matchCodingLine l = some (detect_encoding "ascii" "# coding: utf-8").toList ∧
      (detect_encoding "ascii" "# coding: utf-8").toList ≠ [] ∧
      (∀ c ∈ (detect_encoding "ascii" "# coding: utf-8").toList, isEncodingChar c = true) ∧
      ∃ mid sep ws rest,
        l = '#' :: (mid ++ (("coding").toList ++
          (sep :: (ws ++ ((detect_encoding "ascii" "# coding: utf-8").toList ++ rest))))) ∧
        (sep = ':' ∨ sep = '=') ∧
        (∀ c ∈ ws, isPySpace c = true) :=
  detect_encoding_result_provenance "ascii" "# coding: utf-8" (by decide)

/-! ## Claim theorems for the composer -/

/-- C2 counterexample: the attachment order asserted by the claim differs
from the order the constructor performs; in the source trace the
static-analysis checker (Frosted) is attached strictly before the style
checker (PEP8), opposite to the claimed order of the two linters. -/
theorem composer_claimed_order_refuted :
    specClaimedInstallOrder ≠ qPythonCodeEdit_install_trace ∧
    qPythonCodeEdit_install_trace.indexOf
        (InstallEvent.installMode Component.frostedCheckerMode) <
      qPythonCodeEdit_install_trace.indexOf
        (InstallEvent.installMode Component.pep8CheckerMode) := by
  decide

/-- C2 (amended): the constructor attaches components in exactly the fixed
order of the amended claim, with the document-analyser component strictly
first and the static-analysis checker attached before the style checker. -/
theorem composer_install_order :
    qPythonCodeEdit_install_trace = specAmendedInstallOrder ∧
    qPythonCodeEdit_install_trace.head? =
      some (InstallEvent.installMode Component.documentAnalyserMode) := by
  decide

/-! ## Claim theorems for the theme applier -/

/-- C5: applying the dark theme and then the light theme leaves every generic
shared style attribute exactly equal to the light-theme constants, for every
pair of palettes and every starting state. -/
theorem dark_then_light_generic_attrs (dark light : Palette) (s : EditorState) :
    (use_white_style true light (use_dark_style true dark s)).core
      = lightCoreConstants :=
  rfl

/-- C6: calling a theme entry point with use false is a complete no-op: the
whole shared style state, refresh counter included, is returned unchanged, so
no re-render is requested and no reversion to the other theme occurs. -/
theorem use_style_false_noop :
    (∀ (dark : Palette) (s : EditorState), use_dark_style false dark s = s) ∧
    (∀ (light : Palette) (s : EditorState), use_white_style false light s = s) ∧
    (∀ (dark : Palette) (s : EditorState),
      (use_dark_style false dark s).refreshCount = s.refreshCount) ∧
    (∀ (light : Palette) (s : EditorState),
      (use_white_style false light s).refreshCount = s.refreshCount) :=
  ⟨fun _ _ => rfl, fun _ _ => rfl, fun _ _ => rfl, fun _ _ => rfl⟩

/-- Keys namespaced with the same marker are equal exactly when the palette
keys are equal. -/
theorem pyKeyInjective (a b : String) (h : "py_" ++ a = "py_" ++ b) : a = b := by
  have h2 : ("py_" ++ a).data = ("py_" ++ b).data := by rw [h]
  rw [String.data_append, String.data_append] at h2
  exact String.ext (List.append_cancel_left h2)

/-- A palette write loop leaves every slot outside the namespaced key set
unchanged. -/
theorem applyPalette_not_mem (p : Palette) (d : PyDict) (q : String)
    (h : ∀ k ∈ p.map Prod.fst, q ≠ "py_" ++ k) : applyPalette p d q = d q := by
  induction p generalizing d with
  | nil => rfl
  | cons kv p ih =>
    show applyPalette p (dictInsert d ("py_" ++ kv.1) kv.2) q = d q
    rw [ih (dictInsert d ("py_" ++ kv.1) kv.2)
      (fun k hk => h k (by simp [hk]))]
    have hq : q ≠ "py_" ++ kv.1 := h kv.1 (by simp)
    simp [dictInsert, hq]

/-- A palette write loop stores, for every key of the palette, one of that
key's palette values in the namespaced slot. -/
theorem applyPalette_mem (p : Palette) (d : PyDict) (k : String)
    (h : k ∈ p.map Prod.fst) :
    ∃ v, (k, v) ∈ p ∧ applyPalette p d ("py_" ++ k) = some v := by
  induction p generalizing d with
  | nil => simp at h
  | cons kv p ih =>
    show ∃ v, _ ∧ applyPalette p (dictInsert d ("py_" ++ kv.1) kv.2) ("py_" ++ k) = some v
    by_cases hk : k ∈ p.map Prod.fst
    · obtain ⟨v, hv, he⟩ := ih (dictInsert d ("py_" ++ kv.1) kv.2) hk
      exact ⟨v, List.mem_cons_of_mem kv hv, he⟩
    · have hkk : k = kv.1 := by
        rcases List.mem_map.mp h with ⟨x, hx, hfx⟩
        rcases List.mem_cons.mp hx with hx1 | hx2
        · rw [hx1] at hfx; exact hfx.symm
        · exact absurd (hfx ▸ List.mem_map_of_mem Prod.fst hx2) hk
      have hknotp : ∀ k' ∈ p.map Prod.fst, ("py_" ++ k) ≠ "py_" ++ k' := by
        intro k' hk' heq
        have hkk' : k = k' := pyKeyInjective k k' heq
        rw [hkk'] at hk
        exact hk hk'
      refine ⟨kv.2, ?_, ?_⟩
      · rw [hkk]; exact List.mem_cons_self kv p
      · rw [applyPalette_not_mem p (dictInsert d ("py_" ++ kv.1) kv.2) ("py_" ++ k) hknotp,
          hkk]
        simp [dictInsert]

/-- C7: after a theme application, every key of the chosen palette has been
written into the shared language-style slot namespaced by the py marker, and
every language-style slot outside the palette's namespaced key set is left
unchanged; the six generic attributes live in the separate core store. -/
theorem theme_palette_writes (p : Palette) (s : EditorState) :
    (∀ k, k ∈ p.map Prod.fst →
      ∃ v, (k, v) ∈ p ∧
        (set_dark_color_scheme p s).pyStyle ("py_" ++ k) = some v ∧
        (set_white_color_scheme p s).pyStyle ("py_" ++ k) = some v) ∧
    (∀ q, (∀ k ∈ p.map Prod.fst, q ≠ "py_" ++ k) →
      (set_dark_color_scheme p s).pyStyle q = s.pyStyle q ∧
      (set_white_color_scheme p s).pyStyle q = s.pyStyle q) := by
  constructor
  · intro k hk
    obtain ⟨v, hv, he⟩ := applyPalette_mem p s.pyStyle k hk
    exact ⟨v, hv, he, he⟩
  · intro q hq
    exact ⟨applyPalette_not_mem p s.pyStyle q hq,
      applyPalette_not_mem p s.pyStyle q hq⟩

/-- Witness for C7 at a one-entry palette and the blank state: the keyword
slot is written and an unrelated slot is untouched. -/
theorem theme_palette_writes_witness :
    (∃ v, ("keyword", v) ∈ ([("keyword", "#CC7832")] : Palette) ∧
      (set_dark_color_scheme [("keyword", "#CC7832")] emptyEditorState).pyStyle
          ("py_" ++ "keyword") = some v ∧
      (set_white_color_scheme [("keyword", "#CC7832")] emptyEditorState).pyStyle
          ("py_" ++ "keyword") = some v) ∧
    ((set_dark_color_scheme [("keyword", "#CC7832")] emptyEditorState).pyStyle
        "background" = emptyEditorState.pyStyle "background" ∧
     (set_white_color_scheme [("keyword", "#CC7832")] emptyEditorState).pyStyle
        "background" = emptyEditorState.pyStyle "background") :=
  ⟨(theme_palette_writes [("keyword", "#CC7832")] emptyEditorState).1
      "keyword" (by decide),
   (theme_palette_writes [("keyword", "#CC7832")] emptyEditorState).2
      "background" (by decide)⟩

end PyQode
